import Mathlib

/-!
Shallow embedding of the voice-interaction subsystem of the vision-listener
web client, together with proofs settling the frozen claims about it.

The embedding follows the source hooks:
* `useTextToSpeech` (final variant: speech-output engine with a native
  synthesizer backend, a ResponsiveVoice backend, locale/voice resolution);
* `useVoiceCommands` (current variant: recognition session lifecycle with
  stale-session guard; and the earlier variant with `processCommand`,
  the keyword classifier, and its error handler);
* `useCaptionHistory` (history list with a 50-entry cap);
* `useImageCaption` (caption fetch state machine).

JavaScript strings are Lean `String`s; `String.prototype.includes` and
`startsWith` are modelled by executable character-list functions below.
All definitions are computable so that concrete runs evaluate by `decide`.
-/

namespace VisionListener

/-- Whether `pat` occurs at the head of `l` (JS `String.prototype.startsWith` on char lists). -/
def chListStartsWith : List Char → List Char → Bool
  | _, [] => true
  | [], _ :: _ => false
  | a :: as, b :: bs => a == b && chListStartsWith as bs

/-- Whether `pat` occurs somewhere inside `l` (JS `String.prototype.includes` on char lists). -/
def chListContains : List Char → List Char → Bool
  | [], pat => pat.isEmpty
  | a :: as, pat => chListStartsWith (a :: as) pat || chListContains as pat

/-- JS `s.startsWith(pat)`. -/
def strStartsWith (s pat : String) : Bool :=
  chListStartsWith s.toList pat.toList

/-- JS `s.includes(pat)`. -/
def strContains (s pat : String) : Bool :=
  chListContains s.toList pat.toList

/-- JS `s.toLowerCase()` (ASCII case folding; locale tags and the voice
names used by the code are ASCII except for native-script names, which
JS lowercasing also leaves unchanged). -/
def strToLower (s : String) : String :=
  String.mk (s.toList.map Char.toLower)

/-- A `SpeechSynthesisVoice`: display name and BCP-47 locale tag. -/
structure Voice where
  name : String
  lang : String
deriving DecidableEq, Repr

/-- Table `LANGUAGE_VOICE_MAP` of the final `useTextToSpeech` variant:
language code to ordered candidate locale list. -/
def LANGUAGE_VOICE_MAP (langCode : String) : Option (List String) :=
  if langCode == "en" then some ["en-US", "en-GB", "en-AU", "en"]
  else if langCode == "hi" then some ["hi-IN", "hi"]
  else if langCode == "te" then some ["te-IN", "te"]
  else none

/-- The candidate locale list: `LANGUAGE_VOICE_MAP[langCode] || [langCode]`. -/
def localesFor (langCode : String) : List String :=
  (LANGUAGE_VOICE_MAP langCode).getD [langCode]

/-- Table `langNames` inside `findVoiceForLanguage`: language code to
human/native language names searched in voice display names. -/
def langNames (langCode : String) : List String :=
  if langCode == "hi" then ["hindi", "हिन्दी"]
  else if langCode == "te" then ["telugu", "తెలుగు"]
  else if langCode == "en" then ["english"]
  else []

/-- Exact-match tier: first locale (in table order) having a voice whose
tag equals it. -/
def firstExact (voices : List Voice) : List String → Option Voice
  | [] => none
  | loc :: rest =>
    match voices.find? (fun v => v.lang == loc) with
    | some v => some v
    | none => firstExact voices rest

/-- Loose-match predicate of the second tier:
`v.lang.startsWith(locale) || locale.startsWith(v.lang) ||
 v.lang.toLowerCase().includes(locale.toLowerCase())`. -/
def loosePred (loc : String) (v : Voice) : Bool :=
  strStartsWith v.lang loc || strStartsWith loc v.lang ||
    strContains (strToLower v.lang) (strToLower loc)

/-- Loose-match tier over the candidate locales. -/
def firstLoose (voices : List Voice) : List String → Option Voice
  | [] => none
  | loc :: rest =>
    match voices.find? (loosePred loc) with
    | some v => some v
    | none => firstLoose voices rest

/-- Name-based predicate of the last tier:
`v.name.toLowerCase().includes(name.toLowerCase())`. -/
def namePred (nm : String) (v : Voice) : Bool :=
  strContains (strToLower v.name) (strToLower nm)

/-- Name-based tier over the language-name candidates. -/
def firstByName (voices : List Voice) : List String → Option Voice
  | [] => none
  | nm :: rest =>
    match voices.find? (namePred nm) with
    | some v => some v
    | none => firstByName voices rest

/-- Resolver `findVoiceForLanguage` of the final `useTextToSpeech` variant:
empty list short-circuits to `none`; then exact tier, loose tier,
name tier; otherwise `none` (browser default, no substitution). -/
def findVoiceForLanguage (availableVoices : List Voice) (langCode : String) : Option Voice :=
  if availableVoices.length == 0 then none
  else
    let locales := localesFor langCode
    match firstExact availableVoices locales with
    | some v => some v
    | none =>
      match firstLoose availableVoices locales with
      | some v => some v
      | none => firstByName availableVoices (langNames langCode)

/-!
## Speech-output engine (final `useTextToSpeech` variant)

The hook orchestrates a native `speechSynthesis` backend and a
script-injected ResponsiveVoice backend.  The single-threaded event-loop
semantics is modelled by a step function over explicit events: `speak` /
`stop` calls, and the asynchronous callbacks the platform delivers
(utterance start / end / error, ResponsiveVoice start / end / error, the
350 ms `isPlaying` timer).  Per the Web Speech API, `cancel()` makes the
cancelled utterance fire a final `error` (or `end`) event; those
deliveries are the `natCancelErr` / `natCancelEnd` events below, and they
run the handlers the utterance captured at creation, exactly as the
source closures do.  Utterance presentation fields that no claim
observes (rate, pitch, volume) are not tracked.
-/

/-- A native `SpeechSynthesisUtterance` as its callbacks see it: the id
distinguishes utterance objects, `text` and `lang` are the closure
captures of `speak`. -/
structure NatUtt where
  id : Nat
  text : String
  lang : String
deriving DecidableEq, Repr

/-- A ResponsiveVoice utterance started by `speakWithResponsiveVoice`. -/
structure RvUtt where
  id : Nat
  text : String
  lang : String
  voiceName : String
deriving DecidableEq, Repr

/-- Host-platform capabilities, fixed for a run. -/
structure TtsEnv where
  synthPresent : Bool
  rvPresent : Bool
  rvHasVoiceSupportFn : Bool
  rvVoiceSupportVal : Bool
  rvVoiceNames : List String
  rvHasIsPlaying : Bool
  voices : List Voice
deriving DecidableEq, Repr

/-- Engine state: the React state (`isSpeaking`, `isSupported`,
`currentLanguage`), the utterance currently queued on each backend,
the cancelled native utterances whose final events are still pending,
and the pending `isPlaying`-check timers. -/
structure TtsState where
  isSpeaking : Bool
  isSupported : Bool
  currentLanguage : String
  nextId : Nat
  nativeCur : Option NatUtt
  nativeCancelled : List NatUtt
  rvCur : Option RvUtt
  rvTimers : List Nat
deriving DecidableEq, Repr

/-- Initial hook state.  The source sets `isSupported` with
`useState(true)` ("Always supported with audio fallback"), ignoring the
platform: the environment argument is deliberately unused. -/
def useTextToSpeechInit (_env : TtsEnv) : TtsState :=
  { isSpeaking := false, isSupported := true, currentLanguage := "en",
    nextId := 0, nativeCur := none, nativeCancelled := [],
    rvCur := none, rvTimers := [] }

/-- The `candidates` table of `speakWithResponsiveVoice`
(`candidates[langCode] || candidates.en`). -/
def rvCandidates (langCode : String) : List String :=
  if langCode == "en" then ["UK English Female", "US English Female"]
  else if langCode == "hi" then ["Hindi Female", "Hindi Male"]
  else if langCode == "te" then ["Telugu Female", "Telugu Male"]
  else ["UK English Female", "US English Female"]

/-- Function `speakWithResponsiveVoice(text, langCode)`: returns whether the
backend accepted the utterance, and the new state.  With an
`isPlaying` probe available it schedules the 350 ms check; otherwise it
sets `isSpeaking` synchronously.  The `onstart`/`onend`/`onerror`
callbacks passed to `rv.speak` are delivered later as events. -/
def speakWithResponsiveVoice (env : TtsEnv) (text langCode : String) (s : TtsState) :
    Bool × TtsState :=
  if !env.rvPresent then (false, s)
  else if env.rvHasVoiceSupportFn && !env.rvVoiceSupportVal then (false, s)
  else
    let candidateVoices := rvCandidates langCode
    let availableNames := env.rvVoiceNames
    let voiceName :=
      ((candidateVoices.find? (fun v => availableNames.isEmpty || availableNames.contains v)).getD
        (candidateVoices.headD ""))
    let uid := s.nextId
    let s₁ := { s with nextId := uid + 1, rvCur := some ⟨uid, text, langCode, voiceName⟩ }
    if env.rvHasIsPlaying then
      (true, { s₁ with rvTimers := s₁.rvTimers ++ [uid] })
    else
      (true, { s₁ with isSpeaking := true })

/-- Helper `speakNative` inside `speak`: queue a fresh utterance on the native
synthesizer if it exists.  The utterance's voice is resolved via
`findVoiceForLanguage`; only the closure captures relevant to the
claims (text, language) are tracked. -/
def speakNative (env : TtsEnv) (text langToUse : String) (s : TtsState) :
    Bool × TtsState :=
  if !env.synthPresent then (false, s)
  else
    let uid := s.nextId
    (true, { s with nextId := uid + 1, nativeCur := some ⟨uid, text, langToUse⟩ })

/-- The "Stop any ongoing speech" preamble of `speak`, also the body of
`stop`: pause the (never-assigned) audio element, `speechSynthesis.cancel()`
(the current native utterance becomes cancelled, its final event still
pending), and `responsiveVoice.cancel()`. -/
def cancelAllBackends (env : TtsEnv) (s : TtsState) : TtsState :=
  let s₁ :=
    if env.synthPresent then
      { s with nativeCur := none,
               nativeCancelled := s.nativeCancelled ++ s.nativeCur.toList }
    else s
  if env.rvPresent then { s₁ with rvCur := none } else s₁

/-- Operation `speak(text, languageCode?)` of the final variant: no-op on empty
text; cancel every backend; then the per-language backend policy
(Telugu native-first, Hindi native-if-voice else ResponsiveVoice else
native, default native-first). -/
def speak (env : TtsEnv) (text : String) (languageCode : Option String) (s : TtsState) :
    TtsState :=
  if text == "" then s
  else
    let langToUse := languageCode.getD s.currentLanguage
    let s₂ := cancelAllBackends env s
    if langToUse == "te" then
      let (ok, s₃) := speakNative env text langToUse s₂
      if ok then s₃ else (speakWithResponsiveVoice env text "te" s₃).2
    else if langToUse == "hi" then
      if (findVoiceForLanguage env.voices "hi").isSome then
        (speakNative env text "hi" s₂).2
      else
        let (ok, s₃) := speakWithResponsiveVoice env text "hi" s₂
        if ok then s₃ else (speakNative env text "hi" s₃).2
    else
      let (ok, s₃) := speakNative env text langToUse s₂
      if ok then s₃ else (speakWithResponsiveVoice env text langToUse s₃).2

/-- Operation `stop()`: cancel every backend unconditionally and force idle. -/
def stopTts (env : TtsEnv) (s : TtsState) : TtsState :=
  { cancelAllBackends env s with isSpeaking := false }

/-- Operation `setLanguage(lang)`. -/
def setLanguage (lang : String) (s : TtsState) : TtsState :=
  { s with currentLanguage := lang }

/-- The `utterance.onerror` closure of `speak`: force idle, then for
Hindi/Telugu fall back to ResponsiveVoice with the closure's own
(possibly stale) text and language.  There is no check that the erroring
utterance is still the current one. -/
def onNativeError (env : TtsEnv) (u : NatUtt) (s : TtsState) : TtsState :=
  let s₁ := { s with isSpeaking := false }
  if (u.lang == "hi" || u.lang == "te") && env.rvPresent then
    (speakWithResponsiveVoice env u.text u.lang s₁).2
  else s₁

/-- Events driving the engine: public calls and platform callbacks. -/
inductive TtsEvent
  | speakCall (text : String) (languageCode : Option String)
  | stopCall
  | natStart (id : Nat)
  | natEnd (id : Nat)
  | natErr (id : Nat)
  | natCancelErr (id : Nat)
  | natCancelEnd (id : Nat)
  | rvStart (id : Nat)
  | rvEnd (id : Nat)
  | rvErr (id : Nat)
  | rvTimerFire (id : Nat)
deriving DecidableEq, Repr

/-- One event-loop step.  Callback events are delivered only for the
utterance they belong to (current native / cancelled native / current
ResponsiveVoice / pending timer); other deliveries are impossible and
leave the state unchanged. -/
def ttsStep (env : TtsEnv) (s : TtsState) (e : TtsEvent) : TtsState :=
  match e with
  | .speakCall text lc => speak env text lc s
  | .stopCall => stopTts env s
  | .natStart i =>
    match s.nativeCur with
    | some u => if u.id == i then { s with isSpeaking := true } else s
    | none => s
  | .natEnd i =>
    match s.nativeCur with
    | some u => if u.id == i then { s with isSpeaking := false, nativeCur := none } else s
    | none => s
  | .natErr i =>
    match s.nativeCur with
    | some u =>
      if u.id == i then onNativeError env u { s with nativeCur := none } else s
    | none => s
  | .natCancelErr i =>
    match s.nativeCancelled.find? (fun u => u.id == i) with
    | some u =>
      onNativeError env u
        { s with nativeCancelled := s.nativeCancelled.filter (fun u => !(u.id == i)) }
    | none => s
  | .natCancelEnd i =>
    match s.nativeCancelled.find? (fun u => u.id == i) with
    | some _ =>
      { s with isSpeaking := false,
               nativeCancelled := s.nativeCancelled.filter (fun u => !(u.id == i)) }
    | none => s
  | .rvStart i =>
    match s.rvCur with
    | some r => if r.id == i then { s with isSpeaking := true } else s
    | none => s
  | .rvEnd i =>
    match s.rvCur with
    | some r => if r.id == i then { s with isSpeaking := false, rvCur := none } else s
    | none => s
  | .rvErr i =>
    match s.rvCur with
    | some r => if r.id == i then { s with isSpeaking := false, rvCur := none } else s
    | none => s
  | .rvTimerFire i =>
    if s.rvTimers.contains i then
      let s₁ := { s with rvTimers := s.rvTimers.filter (fun j => !(j == i)) }
      if s₁.rvCur.isSome then s₁ else { s₁ with isSpeaking := false }
    else s

/-- Run the engine from the initial hook state over an event list. -/
def runTts (env : TtsEnv) (evts : List TtsEvent) : TtsState :=
  evts.foldl (ttsStep env) (useTextToSpeechInit env)

/-- All intermediate states after each event, starting from `s`. -/
def ttsStatesFrom (env : TtsEnv) (s : TtsState) : List TtsEvent → List TtsState
  | [] => []
  | e :: rest =>
    let s' := ttsStep env s e
    s' :: ttsStatesFrom env s' rest

/-- The `isSpeaking` observable along a run (initial value included). -/
def speakingTrace (env : TtsEnv) (evts : List TtsEvent) : List Bool :=
  ((useTextToSpeechInit env) :: ttsStatesFrom env (useTextToSpeechInit env) evts).map
    (fun st => st.isSpeaking)

/-- Number of `true → false` transitions in a boolean trace. -/
def fallCount : List Bool → Nat
  | [] => 0
  | [_] => 0
  | a :: b :: rest => (if a && !b then 1 else 0) + fallCount (b :: rest)

/-- A platform with a native Hindi voice, ResponsiveVoice present (with
an `isPlaying` probe, no `voiceSupport` function, no enumerable voice
list) — an ordinary Chrome-with-RV configuration. -/
def rvChromeEnv : TtsEnv :=
  { synthPresent := true, rvPresent := true, rvHasVoiceSupportFn := false,
    rvVoiceSupportVal := true, rvVoiceNames := [], rvHasIsPlaying := true,
    voices := [⟨"Google Hindi", "hi-IN"⟩, ⟨"Google US English", "en-US"⟩] }

/-- Two `speak` calls in rapid succession; the second call's utterance
starts and ends; then the platform delivers the cancelled first
utterance's final `error` event (which `cancel()` produces), and the
ResponsiveVoice playback it triggers starts and ends. -/
def doubleSpeakTrace : List TtsEvent :=
  [.speakCall "namaste duniya" (some "hi"),
   .speakCall "hello world" (some "en"),
   .natStart 1, .natEnd 1,
   .natCancelErr 0,
   .rvStart 2, .rvEnd 2]

/-!
## Speech-input engine (current `useVoiceCommands` variant)

`src/hooks/useVoiceCommands.ts`: a recognition session is an object with
mutable `onend` handler; the hook tracks at most one session in
`recognitionRef`.  Sessions are modelled by ids with their observable
flags (`onendAttached`: the `onend` handler is still installed;
`running`: the platform session is active, i.e. a microphone tap is
open).  `startListening` tears the tracked session down (detach `onend`,
`stop()`, null the ref) before constructing and starting a fresh one;
`stopListening` does the same teardown and forces idle.  The platform's
end-of-session callback is the `onEndEvent` function, which returns the
number of `recognition.start()` restart attempts the handler issued. -/

/-- A recognition session object. -/
structure VCSession where
  id : Nat
  onendAttached : Bool
  running : Bool
deriving DecidableEq, Repr

/-- Hook state: React state plus the tracked session ref and every
session object created so far. -/
structure VCState where
  isListening : Bool
  lastCommand : Option String
  recRef : Option Nat
  sessions : List VCSession
  nextId : Nat
deriving DecidableEq, Repr

/-- Initial hook state. -/
def vcInit : VCState :=
  { isListening := false, lastCommand := none, recRef := none,
    sessions := [], nextId := 0 }

/-- Teardown `recognitionRef.current.onend = null; recognitionRef.current.stop()`
applied to every session object with the given id. -/
def detachStop (r : Nat) (l : List VCSession) : List VCSession :=
  l.map fun x => if x.id == r then { x with onendAttached := false, running := false } else x

/-- Set the `running` flag of the session with the given id. -/
def setRunning (i : Nat) (b : Bool) (l : List VCSession) : List VCSession :=
  l.map fun x => if x.id == i then { x with running := b } else x

/-- The teardown prologue shared by `startListening`, `stopListening`
and unmount: if a session is tracked, detach its `onend`, stop it and
null the ref. -/
def teardownTracked (s : VCState) : VCState :=
  match s.recRef with
  | none => s
  | some r => { s with sessions := detachStop r s.sessions, recRef := none }

/-- Operation `startListening`: unsupported platforms get a destructive toast and
nothing else; otherwise tear down any tracked session, construct a fresh
session (with `onend` attached), track it, start it, set `isListening`.
Returns the toasts shown. -/
def startListeningVC (supported : Bool) (s : VCState) : VCState × List String :=
  if supported then
    let s₁ := teardownTracked s
    let newSess : VCSession := { id := s₁.nextId, onendAttached := true, running := false }
    let s₂ := { s₁ with sessions := s₁.sessions ++ [newSess],
                        nextId := s₁.nextId + 1, recRef := some newSess.id }
    ({ s₂ with sessions := setRunning newSess.id true s₂.sessions, isListening := true },
     ["Voice Commands Active"])
  else (s, ["Not supported"])

/-- Operation `stopListening`: teardown, then force idle and clear the transcript. -/
def stopListeningVC (s : VCState) : VCState :=
  { teardownTracked s with isListening := false, lastCommand := none }

/-- The platform ends session `sid`: the session stops running and, if
its `onend` handler is still attached, the handler runs
`if (recognitionRef.current === recognition) recognition.start()`.
Returns the new state and the number of restart attempts issued. -/
def onEndEvent (sid : Nat) (s : VCState) : VCState × Nat :=
  match s.sessions.find? (fun x => x.id == sid) with
  | none => (s, 0)
  | some sess =>
    let ended := { s with sessions := setRunning sid false s.sessions }
    if sess.onendAttached then
      if ended.recRef = some sid then
        ({ ended with sessions := setRunning sid true ended.sessions }, 1)
      else (ended, 0)
    else (ended, 0)

/-- Flag `isSupported` of the current variant:
`!!(window.SpeechRecognition || window.webkitSpeechRecognition)`. -/
def vcIsSupported (speechRecognitionAvailable : Bool) : Bool :=
  speechRecognitionAvailable

/-!
## Speech-input engine, earlier variant (`useVoiceCommands` with
`processCommand`)

This variant routes transcripts to the five-action dispatcher
`processCommand` and handles recognition errors in `recognition.onerror`:
`console.error` always, a destructive toast only for `'not-allowed'`,
and `setIsListening(false)` unconditionally. -/

/-- React state of the earlier variant relevant to its error handler. -/
structure P0State where
  isListening : Bool
  lastCommand : Option String
deriving DecidableEq, Repr

/-- Handler `recognition.onerror` of the earlier variant. Returns the new state
and the user-visible toasts shown. -/
def onErrorP0 (error : String) (s : P0State) : P0State × List String :=
  let toasts := if error == "not-allowed" then ["Microphone access denied"] else []
  ({ s with isListening := false }, toasts)

/-- The application actions of the earlier variant's dispatcher. -/
inductive VoiceAction
  | capture
  | describeAgain
  | clear
  | save
  | stop
deriving DecidableEq, Repr

/-- Dispatcher `processCommand(transcript)`: keyword-containment matching, in
source order (capture, describe-again, clear, save, stop); the first
matching branch invokes its handler and returns.  Modelled as the
action invoked, `none` when no branch matches. -/
def processCommand (transcript : String) : Option VoiceAction :=
  if strContains transcript "capture" || strContains transcript "take photo" ||
      strContains transcript "take picture" || strContains transcript "snap" ||
      strContains transcript "click" then
    some VoiceAction.capture
  else if strContains transcript "describe again" || strContains transcript "repeat" ||
      strContains transcript "say again" || strContains transcript "read again" ||
      strContains transcript "describe" then
    some VoiceAction.describeAgain
  else if strContains transcript "clear" || strContains transcript "new image" ||
      strContains transcript "remove" || strContains transcript "reset" then
    some VoiceAction.clear
  else if strContains transcript "save" || strContains transcript "store" ||
      strContains transcript "keep" then
    some VoiceAction.save
  else if strContains transcript "stop" || strContains transcript "quiet" ||
      strContains transcript "silence" || strContains transcript "shut up" then
    some VoiceAction.stop
  else
    none

/-- The dispatcher's branch structure as an ordered {action, keywords}
table, in the source's branch order. -/
def commandTable : List (VoiceAction × List String) :=
  [(VoiceAction.capture, ["capture", "take photo", "take picture", "snap", "click"]),
   (VoiceAction.describeAgain, ["describe again", "repeat", "say again", "read again", "describe"]),
   (VoiceAction.clear, ["clear", "new image", "remove", "reset"]),
   (VoiceAction.save, ["save", "store", "keep"]),
   (VoiceAction.stop, ["stop", "quiet", "silence", "shut up"])]

/-- First-match-wins evaluation of an ordered keyword table. -/
def classifyTable : List (VoiceAction × List String) → String → Option VoiceAction
  | [], _ => none
  | (a, kws) :: rest, t =>
    if kws.any (fun k => strContains t k) then some a else classifyTable rest t

/-!
## History store (`useCaptionHistory`)
-/

/-- A stored history entry. -/
structure HistoryItem where
  id : String
  imageData : String
  caption : String
  translatedCaption : Option String
  language : Option String
  safetyAlerts : Option (List String)
  timestamp : Nat
deriving DecidableEq, Repr

/-- Constant `MAX_HISTORY_ITEMS`. -/
def MAX_HISTORY_ITEMS : Nat := 50

/-- Operation `addToHistory`: `[newItem, ...prev].slice(0, MAX_HISTORY_ITEMS)` —
prepend the new entry and truncate to the cap. -/
def addToHistory (newItem : HistoryItem) (prev : List HistoryItem) : List HistoryItem :=
  (newItem :: prev).take MAX_HISTORY_ITEMS

/-!
## Caption request (`useImageCaption`)
-/

/-- Parsed response body of the caption service (fields may be absent). -/
structure CaptionBody where
  caption : Option String
  translatedCaption : Option String
  safetyAlerts : Option (List String)
deriving DecidableEq, Repr

/-- How the `fetch` inside `generateCaption` resolves. -/
inductive FetchOutcome
  | networkError
  | httpError (errMsg : Option String)
  | parseError
  | ok (body : CaptionBody)
deriving DecidableEq, Repr

/-- Hook state of `useImageCaption`. -/
structure CaptionState where
  caption : Option String
  translatedCaption : Option String
  safetyAlerts : List String
  isLoading : Bool
deriving DecidableEq, Repr

/-- The prologue of `generateCaption`, executed before the request is
issued: set loading, clear caption, translation and alerts. -/
def generateCaptionStart (_s : CaptionState) : CaptionState :=
  { caption := none, translatedCaption := none, safetyAlerts := [], isLoading := true }

/-- An outcome the source treats as a failure: non-2xx, network or
parse error, or a 2xx body whose `caption` is falsy (absent or empty). -/
def isFailureOutcome : FetchOutcome → Bool
  | .ok body =>
    match body.caption with
    | some c => c == ""
    | none => true
  | _ => true

/-- The remainder of `generateCaption` after the response arrives:
on success publish caption / translation / alerts and toast; any throw
lands in the catch block (error toast); `finally` clears loading.
Returns the new state and the toast titles shown. -/
def generateCaptionFinish (s : CaptionState) (o : FetchOutcome) : CaptionState × List String :=
  match o with
  | .networkError => ({ s with isLoading := false }, ["Error"])
  | .httpError _ => ({ s with isLoading := false }, ["Error"])
  | .parseError => ({ s with isLoading := false }, ["Error"])
  | .ok body =>
    match body.caption with
    | some c =>
      if c == "" then ({ s with isLoading := false }, ["Error"])
      else
        let alerts := body.safetyAlerts.getD []
        ({ caption := some c, translatedCaption := body.translatedCaption,
           safetyAlerts := alerts, isLoading := false },
         if alerts.isEmpty then ["Caption generated!"] else ["⚠️ Safety Alert"])
    | none => ({ s with isLoading := false }, ["Error"])

/-- Operation `generateCaption` end to end for one resolved request. -/
def generateCaption (s : CaptionState) (o : FetchOutcome) : CaptionState × List String :=
  generateCaptionFinish (generateCaptionStart s) o

/-!
## Derived notions and concrete scenarios used by the theorems
-/

/-- A platform with neither `speechSynthesis` nor ResponsiveVoice. -/
def noBackendEnv : TtsEnv :=
  { synthPresent := false, rvPresent := false, rvHasVoiceSupportFn := false,
    rvVoiceSupportVal := false, rvVoiceNames := [], rvHasIsPlaying := false,
    voices := [] }

/-- Voice `v` matches some tier of `findVoiceForLanguage` for `langCode`:
its tag equals a candidate locale, or satisfies the loose predicate for
one, or its display name contains a language name. -/
def tierMatch (langCode : String) (v : Voice) : Prop :=
  v.lang ∈ localesFor langCode ∨
  (∃ loc ∈ localesFor langCode, loosePred loc v = true) ∨
  (∃ nm ∈ langNames langCode, namePred nm v = true)

/-- A concrete history entry. -/
def sampleHistoryItem : HistoryItem :=
  { id := "id-1", imageData := "data-url", caption := "a caption",
    translatedCaption := none, language := none, safetyAlerts := none,
    timestamp := 0 }

/-!
## Theorems settling the claims
-/

/-- Helper: `isLoading` is false after `generateCaptionFinish`,
whatever the outcome (the `finally` block). -/
theorem generateCaptionFinish_isLoading (s : CaptionState) (o : FetchOutcome) :
    (generateCaptionFinish s o).1.isLoading = false := by
  cases o with
  | networkError => rfl
  | httpError e => rfl
  | parseError => rfl
  | ok body =>
    cases hb : body.caption with
    | none => simp [generateCaptionFinish, hb]
    | some c =>
      by_cases hc : c == "" <;> simp [generateCaptionFinish, hb, hc]

/-- Helper: failure outcomes leave caption, translation and alerts
untouched (the catch block only toasts). -/
theorem generateCaptionFinish_failure (s : CaptionState) (o : FetchOutcome)
    (h : isFailureOutcome o = true) :
    (generateCaptionFinish s o).1.caption = s.caption ∧
    (generateCaptionFinish s o).1.translatedCaption = s.translatedCaption ∧
    (generateCaptionFinish s o).1.safetyAlerts = s.safetyAlerts := by
  cases o with
  | networkError => exact ⟨rfl, rfl, rfl⟩
  | httpError e => exact ⟨rfl, rfl, rfl⟩
  | parseError => exact ⟨rfl, rfl, rfl⟩
  | ok body =>
    cases hb : body.caption with
    | none => simp [generateCaptionFinish, hb]
    | some c =>
      have hc : (c == "") = true := by
        simpa [isFailureOutcome, hb] using h
      simp [generateCaptionFinish, hb, hc]

/-- C10: `generateCaption` clears all exposed results before the request
is issued; after completion `isLoading` is false for every outcome; and
on any failure (network error, non-2xx, parse error, or a body with a
falsy caption) the caption, translation and alerts stay cleared. -/
theorem generateCaption_no_stale_results (s : CaptionState) (o : FetchOutcome) :
    (generateCaptionStart s).caption = none ∧
    (generateCaptionStart s).translatedCaption = none ∧
    (generateCaptionStart s).safetyAlerts = [] ∧
    (generateCaptionStart s).isLoading = true ∧
    (generateCaption s o).1.isLoading = false ∧
    (isFailureOutcome o = true →
      (generateCaption s o).1.caption = none ∧
      (generateCaption s o).1.translatedCaption = none ∧
      (generateCaption s o).1.safetyAlerts = []) := by
  refine ⟨rfl, rfl, rfl, rfl, generateCaptionFinish_isLoading _ o, fun h => ?_⟩
  have hf := generateCaptionFinish_failure (generateCaptionStart s) o h
  exact ⟨hf.1, hf.2.1, hf.2.2⟩

/-- Witness for C10 at a concrete stale state and a failing outcome. -/
theorem generateCaption_no_stale_results_witness :
    isFailureOutcome FetchOutcome.networkError = true ∧
    (generateCaption ⟨some "old", some "stale", ["alert"], false⟩
        FetchOutcome.networkError).1.isLoading = false ∧
    (generateCaption ⟨some "old", some "stale", ["alert"], false⟩
        FetchOutcome.networkError).1.caption = none := by
  refine ⟨by decide, ?_, ?_⟩
  · exact (generateCaption_no_stale_results ⟨some "old", some "stale", ["alert"], false⟩
      FetchOutcome.networkError).2.2.2.2.1
  · exact ((generateCaption_no_stale_results ⟨some "old", some "stale", ["alert"], false⟩
      FetchOutcome.networkError).2.2.2.2.2 (by decide)).1

/-- C9: `addToHistory` keeps the history at or below the 50-entry cap,
always places the new entry first (most-recent-first order), and at the
cap evicts exactly the oldest (last) entry. -/
theorem addToHistory_cap_and_evict (newItem : HistoryItem) (prev : List HistoryItem) :
    (addToHistory newItem prev).length ≤ MAX_HISTORY_ITEMS ∧
    (addToHistory newItem prev).head? = some newItem ∧
    (prev.length = MAX_HISTORY_ITEMS →
      addToHistory newItem prev = newItem :: prev.dropLast) := by
  refine ⟨?_, ?_, fun h => ?_⟩
  · simp [addToHistory, List.length_take]
  · rfl
  · show (newItem :: prev).take 50 = newItem :: prev.dropLast
    rw [List.take_succ_cons, List.dropLast_eq_take, h]
    rfl

/-- Witness for C9 at a full history. -/
theorem addToHistory_cap_and_evict_witness :
    (List.replicate MAX_HISTORY_ITEMS sampleHistoryItem).length = MAX_HISTORY_ITEMS ∧
    addToHistory sampleHistoryItem (List.replicate MAX_HISTORY_ITEMS sampleHistoryItem)
      = sampleHistoryItem :: (List.replicate MAX_HISTORY_ITEMS sampleHistoryItem).dropLast := by
  refine ⟨by simp, ?_⟩
  exact (addToHistory_cap_and_evict sampleHistoryItem
    (List.replicate MAX_HISTORY_ITEMS sampleHistoryItem)).2.2 (by simp)

/-- C1: two `speak` calls in rapid succession on a platform with a
native Hindi voice and ResponsiveVoice.  The second call does cancel
the first utterance on every backend before starting (conjuncts 1-2),
and the second call's utterance produces the single legitimate
`speaking = true → false` transition (conjunct 3).  But when the
platform then delivers the cancelled first utterance's `error` event —
which `speechSynthesis.cancel()` produces — the first utterance's
`onerror` closure runs the Hindi ResponsiveVoice fallback with the
*old* text: `isSpeaking` becomes true again after the second call has
already finished (conjuncts 4-5), and the full run shows two terminal
`true → false` transitions instead of the claimed exactly one
(conjunct 6).  The code has no guard that the erroring utterance is
still the current one, so the claimed no-resurrection property fails. -/
theorem speak_resurrection_bug :
    (runTts rvChromeEnv (doubleSpeakTrace.take 2)).nativeCur
      = some ⟨1, "hello world", "en"⟩ ∧
    (runTts rvChromeEnv (doubleSpeakTrace.take 2)).nativeCancelled
      = [⟨0, "namaste duniya", "hi"⟩] ∧
    (runTts rvChromeEnv (doubleSpeakTrace.take 4)).isSpeaking = false ∧
    (runTts rvChromeEnv (doubleSpeakTrace.take 6)).isSpeaking = true ∧
    (runTts rvChromeEnv (doubleSpeakTrace.take 6)).rvCur
      = some ⟨2, "namaste duniya", "hi", "Hindi Female"⟩ ∧
    fallCount (speakingTrace rvChromeEnv doubleSpeakTrace) = 2 := by
  decide

/-- C5 counterexample: in the earlier `useVoiceCommands` variant, a
"no speech detected" error does NOT leave the listening state
unchanged — `recognition.onerror` calls `setIsListening(false)`
unconditionally, so a listening engine drops to idle (while indeed
showing no toast). -/
theorem onErrorP0_noSpeech_changes_state :
    (⟨true, some "hello"⟩ : P0State).isListening = true ∧
    (onErrorP0 "no-speech" ⟨true, some "hello"⟩).1.isListening = false ∧
    (onErrorP0 "no-speech" ⟨true, some "hello"⟩).2 = [] := by
  decide

/-- C5 amended: in the earlier `useVoiceCommands` variant, every
recognition error — including "no speech detected" and "aborted" —
forces `isListening` to false; only a permission-denied
(`'not-allowed'`) error is additionally surfaced as a user-visible
toast, and no error touches the stored transcript. -/
theorem onErrorP0_spec (s : P0State) (error : String) :
    (onErrorP0 error s).1.isListening = false ∧
    (onErrorP0 error s).1.lastCommand = s.lastCommand ∧
    (onErrorP0 error s).2
      = (if error == "not-allowed" then ["Microphone access denied"] else []) := by
  exact ⟨rfl, rfl, rfl⟩

/-- C6 counterexample: the claim's own example fails on the code.
`processCommand` matches the capture keywords `"capture"`,
`"take photo"`, `"take picture"`, `"snap"`, `"click"` by substring
containment, and none of them occurs in "please take a photo now"
(the article breaks `"take photo"`), so the dispatcher yields no
action, not Capture. -/
theorem processCommand_take_a_photo_counterexample :
    processCommand "please take a photo now" = none ∧
    processCommand "please take a photo now" ≠ some VoiceAction.capture := by
  decide

/-- C6 amended: `processCommand` is exactly first-match-wins
keyword-containment over the fixed ordered five-entry table Capture,
DescribeAgain, Clear, Save, Stop (so a later category is unreachable
once an earlier one matches); there are no OpenCamera or UploadImage
categories ("open camera" yields no action); "please take a photo now"
yields no action while a transcript containing a capture keyword such
as "take photo now" yields Capture; the remaining claimed examples
behave as stated, and an unmatched transcript yields no action and no
error. -/
theorem processCommand_table_spec :
    (∀ t : String, processCommand t = classifyTable commandTable t) ∧
    processCommand "take photo now" = some VoiceAction.capture ∧
    processCommand "please take a photo now" = none ∧
    processCommand "can you describe it again" = some VoiceAction.describeAgain ∧
    processCommand "clear the image" = some VoiceAction.clear ∧
    processCommand "save this" = some VoiceAction.save ∧
    processCommand "stop talking" = some VoiceAction.stop ∧
    processCommand "what\x27s the weather" = none ∧
    processCommand "open camera" = none := by
  refine ⟨fun t => ?_, by decide, by decide, by decide, by decide, by decide,
    by decide, by decide, by decide⟩
  simp only [processCommand, commandTable, classifyTable, List.any_cons, List.any_nil,
    Bool.or_false, Bool.or_assoc]

/-- C8 counterexample: the final speech-output engine hard-codes
`isSupported = true` ("Always supported with audio fallback"), so on a
platform without `speechSynthesis` the capability flag is NOT false. -/
theorem tts_isSupported_counterexample :
    noBackendEnv.synthPresent = false ∧
    (useTextToSpeechInit noBackendEnv).isSupported = true := by
  decide

/-- C8 amended: for speech recognition the missing capability is
surfaced as `isSupported = false` and `startListening` only reports
"Not supported", leaving the state untouched; `stopListening` is safe
and forces idle.  The speech-output engine instead reports
`isSupported = true` unconditionally; still, with no synthesis backend
at all, `speak` leaves the engine state completely unchanged and
`stop` merely forces `isSpeaking = false` — no operation throws
(all operations are total functions). -/
theorem unsupported_capability_noop :
    vcIsSupported false = false ∧
    (∀ s : VCState, (startListeningVC false s).1 = s ∧
      (startListeningVC false s).2 = ["Not supported"]) ∧
    (∀ s : VCState, (stopListeningVC s).isListening = false) ∧
    (∀ env : TtsEnv, (useTextToSpeechInit env).isSupported = true) ∧
    (∀ (s : TtsState) (text : String) (lc : Option String),
      speak noBackendEnv text lc s = s) ∧
    (∀ s : TtsState, stopTts noBackendEnv s = { s with isSpeaking := false }) := by
  refine ⟨rfl, fun s => ⟨rfl, rfl⟩, fun s => rfl, fun env => rfl, fun s text lc => ?_, fun s => ?_⟩
  · simp [speak, cancelAllBackends, speakNative, speakWithResponsiveVoice,
      noBackendEnv, findVoiceForLanguage]
  · simp [stopTts, cancelAllBackends, noBackendEnv]

/-- Helper: `stopListening` always leaves no tracked session. -/
theorem stopListeningVC_recRef (s : VCState) : (stopListeningVC s).recRef = none := by
  cases h : s.recRef <;> simp [stopListeningVC, teardownTracked, h]

/-- C2: (a) when the platform ends the session the engine still tracks
and whose `onend` handler is still attached (the situation of an
unexpected session end while listening), the handler issues exactly one
restart attempt and the engine remains listening with the same tracked
session; (b) after an explicit `stopListening`, a session-end event —
for any session id whatsoever — issues zero restart attempts, because
`stopListening` detached the handler and nulled the ref, and only the
currently tracked session object may trigger a restart. -/
theorem onEnd_restart_spec :
    (∀ (s : VCState) (sid : Nat) (sess : VCSession),
      s.sessions.find? (fun x => x.id == sid) = some sess →
      sess.onendAttached = true →
      s.recRef = some sid →
      s.isListening = true →
      (onEndEvent sid s).2 = 1 ∧ (onEndEvent sid s).1.isListening = true ∧
        (onEndEvent sid s).1.recRef = some sid) ∧
    (∀ (s : VCState) (sid : Nat),
      (onEndEvent sid (stopListeningVC s)).2 = 0 ∧
      (onEndEvent sid (stopListeningVC s)).1.isListening = false) := by
  constructor
  · intro s sid sess hfind hatt href hlisten
    simp [onEndEvent, hfind, hatt, href, hlisten]
  · intro s sid
    have hnone := stopListeningVC_recRef s
    have hlist : (stopListeningVC s).isListening = false := rfl
    cases hf : (stopListeningVC s).sessions.find? (fun x => x.id == sid) with
    | none => simp [onEndEvent, hf, hlist]
    | some sess =>
      cases hatt : sess.onendAttached <;>
        simp [onEndEvent, hf, hatt, hnone, hlist]

/-- Witness for C2: from a freshly started engine, a session-end
restarts exactly once and keeps listening; after `stopListening`, a
session-end of the old session restarts nothing. -/
theorem onEnd_restart_witness :
    (onEndEvent 0 (startListeningVC true vcInit).1).2 = 1 ∧
    (onEndEvent 0 (startListeningVC true vcInit).1).1.isListening = true ∧
    (onEndEvent 0 (stopListeningVC (startListeningVC true vcInit).1)).2 = 0 := by
  refine ⟨?_, ?_, ((onEnd_restart_spec.2 (startListeningVC true vcInit).1 0).1)⟩
  · exact (onEnd_restart_spec.1 (startListeningVC true vcInit).1 0 ⟨0, true, true⟩
      (by decide) rfl (by decide) (by decide)).1
  · exact (onEnd_restart_spec.1 (startListeningVC true vcInit).1 0 ⟨0, true, true⟩
      (by decide) rfl (by decide) (by decide)).2.1

/-- Helper: every element of `detachStop r l` comes from `l`, either
untouched (id ≠ r) or with handler detached and stopped (id = r). -/
theorem mem_detachStop (r : Nat) (l : List VCSession) (x : VCSession)
    (hx : x ∈ detachStop r l) :
    ∃ y ∈ l, x = (if y.id == r then { y with onendAttached := false, running := false } else y) := by
  unfold detachStop at hx
  rcases List.mem_map.mp hx with ⟨y, hy, hxy⟩
  exact ⟨y, hy, hxy.symm⟩

/-- Helper: if every running session of `l` has id `r`, then after
`detachStop r` nothing in the list is running. -/
theorem detachStop_running_false (r : Nat) (l : List VCSession)
    (hall : ∀ y ∈ l, y.running = true → y.id = r) :
    ∀ x ∈ detachStop r l, x.running = false := by
  intro x hx
  rcases mem_detachStop r l x hx with ⟨y, hy, rfl⟩
  by_cases h : (y.id == r) = true
  · rw [if_pos h]
  · rw [if_neg h]
    cases hyr : y.running
    · rfl
    · exact absurd (by simp [hall y hy hyr]) h

/-- Helper: `detachStop` preserves session ids. -/
theorem mem_detachStop_id (r : Nat) (l : List VCSession) (x : VCSession)
    (hx : x ∈ detachStop r l) : ∃ y ∈ l, x.id = y.id := by
  rcases mem_detachStop r l x hx with ⟨y, hy, rfl⟩
  by_cases h : (y.id == r) = true
  · rw [if_pos h]; exact ⟨y, hy, rfl⟩
  · rw [if_neg h]; exact ⟨y, hy, rfl⟩

/-- Helper: `detachStop` is the identity when no session has id `r`. -/
theorem detachStop_eq_self (r : Nat) (l : List VCSession)
    (h : ∀ y ∈ l, y.id ≠ r) : detachStop r l = l := by
  induction l with
  | nil => rfl
  | cons y ys ih =>
    have hy : (y.id == r) = false := by
      simp [h y (List.mem_cons_self y ys)]
    simp only [detachStop, List.map_cons, hy, if_false]
    have := ih (fun z hz => h z (List.mem_cons_of_mem y hz))
    simpa [detachStop] using this

/-- Helper: starting the fresh session marks exactly the appended
session as running when all earlier ids differ from its id. -/
theorem setRunning_append_fresh (n : Nat) (l : List VCSession) (a b : Bool)
    (h : ∀ y ∈ l, y.id ≠ n) :
    setRunning n true (l ++ [⟨n, a, b⟩]) = l ++ [⟨n, a, true⟩] := by
  induction l with
  | nil => simp [setRunning]
  | cons y ys ih =>
    have hy : (y.id == n) = false := by
      simp [h y (List.mem_cons_self y ys)]
    have := ih (fun z hz => h z (List.mem_cons_of_mem y hz))
    simp only [setRunning, List.map_cons, hy, if_false, List.cons_append, List.cons.injEq]
    exact ⟨rfl, by simpa [setRunning] using this⟩

/-- Helper: filtering the running sessions of `l ++ [y]` when nothing
in `l` runs. -/
theorem filter_running_append_single (l : List VCSession) (y : VCSession)
    (h : ∀ x ∈ l, x.running = false) :
    (l ++ [y]).filter (fun x => x.running) = if y.running then [y] else [] := by
  induction l with
  | nil => cases hy : y.running <;> simp [List.filter, hy]
  | cons z zs ih =>
    have hz : z.running = false := h z (List.mem_cons_self z zs)
    have := ih (fun x hx => h x (List.mem_cons_of_mem z hx))
    simpa [List.filter_cons, hz] using this

/-- Helper: the result of a supported `startListening`, written in
terms of the intermediate teardown state. -/
theorem startListeningVC_true_eq (s : VCState) :
    (startListeningVC true s).1 =
      { isListening := true, lastCommand := (teardownTracked s).lastCommand,
        recRef := some (teardownTracked s).nextId,
        sessions := setRunning (teardownTracked s).nextId true
          ((teardownTracked s).sessions ++ [⟨(teardownTracked s).nextId, true, false⟩]),
        nextId := (teardownTracked s).nextId + 1 } := by
  rfl

/-- Helper: one supported `startListening` from any state whose running
sessions are all tracked: the result is listening, tracks the fresh
session (which is running with its `onend` attached), and every other
session object is not running. -/
theorem startListeningVC_shape (s : VCState)
    (hFresh : ∀ x ∈ s.sessions, x.id < s.nextId)
    (hRun : ∀ x ∈ s.sessions, x.running = true → s.recRef = some x.id) :
    ∃ t : List VCSession,
      (startListeningVC true s).1 =
        { isListening := true, lastCommand := s.lastCommand, recRef := some s.nextId,
          sessions := t ++ [⟨s.nextId, true, true⟩], nextId := s.nextId + 1 } ∧
      (∀ x ∈ t, x.running = false) ∧
      (∀ x ∈ t, x.id < s.nextId) := by
  cases href : s.recRef with
  | none =>
    refine ⟨s.sessions, ?_, ?_, hFresh⟩
    · have hfix : setRunning s.nextId true (s.sessions ++ [⟨s.nextId, true, false⟩])
          = s.sessions ++ [⟨s.nextId, true, true⟩] :=
        setRunning_append_fresh s.nextId s.sessions true false
          (fun y hy => Nat.ne_of_lt (hFresh y hy))
      simp [startListeningVC, teardownTracked, href, hfix]
    · intro x hx
      cases hxr : x.running
      · rfl
      · exact absurd (hRun x hx hxr) (by simp [href])
  | some r =>
    refine ⟨detachStop r s.sessions, ?_, ?_, ?_⟩
    · have hfix : setRunning s.nextId true (detachStop r s.sessions ++ [⟨s.nextId, true, false⟩])
          = detachStop r s.sessions ++ [⟨s.nextId, true, true⟩] := by
        refine setRunning_append_fresh s.nextId (detachStop r s.sessions) true false ?_
        intro y hy
        rcases mem_detachStop_id r s.sessions y hy with ⟨z, hz, hid⟩
        exact hid ▸ Nat.ne_of_lt (hFresh z hz)
      simp [startListeningVC, teardownTracked, href, hfix]
    · refine detachStop_running_false r s.sessions ?_
      intro y hy hyr
      have := hRun y hy hyr
      rw [href] at this
      exact (Option.some.injEq _ _ ▸ this).symm
    · intro x hx
      rcases mem_detachStop_id r s.sessions x hx with ⟨z, hz, hid⟩
      exact hid ▸ hFresh z hz

/-- C3: starting the engine twice in a row (without stopping) from any
state whose running sessions are all tracked: afterwards exactly one
session object is running (no duplicate microphone taps) — the second
fresh session, which is the tracked one — and the first call's session
is present but stopped with its `onend` handler detached.  Moreover the
teardown happens before the new session is created: in the intermediate
state right after the second call's teardown, the first session is
already stopped and detached while no new session exists yet
(`nextId` untouched). -/
theorem startListening_twice_single_session (s : VCState)
    (hFresh : ∀ x ∈ s.sessions, x.id < s.nextId)
    (hRun : ∀ x ∈ s.sessions, x.running = true → s.recRef = some x.id) :
    ((startListeningVC true (startListeningVC true s).1).1.sessions.filter
        (fun x => x.running)).length = 1 ∧
    (startListeningVC true (startListeningVC true s).1).1.recRef = some (s.nextId + 1) ∧
    (⟨s.nextId, false, false⟩ : VCSession)
      ∈ (startListeningVC true (startListeningVC true s).1).1.sessions ∧
    (∀ x ∈ (startListeningVC true (startListeningVC true s).1).1.sessions,
      x.running = true → x.id = s.nextId + 1) ∧
    (teardownTracked (startListeningVC true s).1).nextId
      = ((startListeningVC true s).1).nextId ∧
    (⟨s.nextId, false, false⟩ : VCSession)
      ∈ (teardownTracked (startListeningVC true s).1).sessions := by
  obtain ⟨t, hshape, htrun, htid⟩ := startListeningVC_shape s hFresh hRun
  set n := s.nextId with hn
  -- the teardown of the second call
  have hdt : detachStop n (t ++ [⟨n, true, true⟩]) = t ++ [⟨n, false, false⟩] := by
    unfold detachStop
    rw [List.map_append]
    have h₁ : t.map (fun x => if x.id == n then
        { x with onendAttached := false, running := false } else x) = t := by
      have := detachStop_eq_self n t (fun y hy => Nat.ne_of_lt (htid y hy))
      simpa [detachStop] using this
    have h₂ : [(⟨n, true, true⟩ : VCSession)].map (fun x => if x.id == n then
        { x with onendAttached := false, running := false } else x)
        = [⟨n, false, false⟩] := by simp
    rw [h₁, h₂]
  have hteardown : teardownTracked (startListeningVC true s).1 =
      { isListening := true, lastCommand := s.lastCommand, recRef := none,
        sessions := t ++ [⟨n, false, false⟩], nextId := n + 1 } := by
    rw [hshape]
    simp [teardownTracked, hdt]
  have hfix2 : setRunning (n + 1) true ((t ++ [⟨n, false, false⟩]) ++ [⟨n + 1, true, false⟩])
      = (t ++ [⟨n, false, false⟩]) ++ [⟨n + 1, true, true⟩] := by
    refine setRunning_append_fresh (n + 1) _ true false ?_
    intro y hy
    rcases List.mem_append.mp hy with hy | hy
    · exact Nat.ne_of_lt (Nat.lt_succ_of_lt (htid y hy))
    · rcases List.mem_singleton.mp hy with rfl
      exact Nat.ne_of_lt (Nat.lt_succ_self n)
  have hfix2' : setRunning (n + 1) true
      (t ++ [(⟨n, false, false⟩ : VCSession), ⟨n + 1, true, false⟩])
      = t ++ [(⟨n, false, false⟩ : VCSession), ⟨n + 1, true, true⟩] := by
    simpa using hfix2
  have hs2 : (startListeningVC true (startListeningVC true s).1).1 =
      { isListening := true, lastCommand := s.lastCommand, recRef := some (n + 1),
        sessions := (t ++ [⟨n, false, false⟩]) ++ [⟨n + 1, true, true⟩],
        nextId := n + 2 } := by
    rw [startListeningVC_true_eq ((startListeningVC true s).1), hteardown]
    simp [hfix2']
  have hmid : ∀ x ∈ t ++ [(⟨n, false, false⟩ : VCSession)], x.running = false := by
    intro x hx
    rcases List.mem_append.mp hx with hx | hx
    · exact htrun x hx
    · rcases List.mem_singleton.mp hx with rfl
      rfl
  refine ⟨?_, ?_, ?_, ?_, ?_, ?_⟩
  · rw [hs2]
    simp only
    rw [filter_running_append_single _ _ hmid]
    rfl
  · rw [hs2]
  · rw [hs2]
    exact List.mem_append_left _ (List.mem_append_right _ (List.mem_singleton.mpr rfl))
  · rw [hs2]
    intro x hx hxr
    rcases List.mem_append.mp hx with hx | hx
    · exact absurd hxr (by simp [hmid x hx])
    · rcases List.mem_singleton.mp hx with rfl
      rfl
  · rw [hteardown, hshape]
  · rw [hteardown]
    exact List.mem_append_right _ (List.mem_singleton.mpr rfl)

/-- Witness for C3 from the initial state. -/
theorem startListening_twice_witness :
    ((startListeningVC true (startListeningVC true vcInit).1).1.sessions.filter
        (fun x => x.running)).length = 1 ∧
    (startListeningVC true (startListeningVC true vcInit).1).1.recRef = some 1 ∧
    (⟨0, false, false⟩ : VCSession)
      ∈ (startListeningVC true (startListeningVC true vcInit).1).1.sessions := by
  have h := startListening_twice_single_session vcInit (by simp [vcInit]) (by simp [vcInit])
  exact ⟨h.1, h.2.1, h.2.2.1⟩

/-- Helper: if some candidate locale has an exact-tag voice, the exact
tier finds a voice with an exact tag. -/
theorem firstExact_complete (voices : List Voice) (locs : List String)
    (h : ∃ loc ∈ locs, ∃ v ∈ voices, v.lang = loc) :
    ∃ w, firstExact voices locs = some w ∧ w.lang ∈ locs ∧ w ∈ voices := by
  induction locs with
  | nil =>
    rcases h with ⟨loc, hloc, _⟩
    cases hloc
  | cons loc rest ih =>
    cases hf : voices.find? (fun v => v.lang == loc) with
    | some w =>
      refine ⟨w, by simp [firstExact, hf], ?_, List.mem_of_find?_eq_some hf⟩
      have hw := List.find?_some hf
      simp only [beq_iff_eq] at hw
      simp [hw]
    | none =>
      have hnone : ∀ v ∈ voices, ¬ v.lang = loc := by
        intro v hv
        have := List.find?_eq_none.mp hf v hv
        simpa using this
      rcases h with ⟨loc', hloc', v, hv, hvl⟩
      rcases List.mem_cons.mp hloc' with rfl | hloc'rest
      · exact absurd hvl (hnone v hv)
      · rcases ih ⟨loc', hloc'rest, v, hv, hvl⟩ with ⟨w, hw1, hw2, hw3⟩
        exact ⟨w, by simp [firstExact, hf, hw1], List.mem_cons_of_mem _ hw2, hw3⟩

/-- C4: for every language code present in the locale preference table,
whenever the voice list contains a voice whose tag exactly equals one
of the code's candidate locales, `findVoiceForLanguage` returns a voice
from the list whose tag is an exact candidate-locale match — never a
voice that matches only loosely (prefix / containment / name). -/
theorem findVoice_exact_preferred (langCode : String)
    (htable : (LANGUAGE_VOICE_MAP langCode).isSome = true)
    (voices : List Voice) (w : Voice) (hw : w ∈ voices)
    (hexact : w.lang ∈ localesFor langCode) :
    ∃ r, findVoiceForLanguage voices langCode = some r ∧
      r.lang ∈ localesFor langCode ∧ r ∈ voices := by
  clear htable
  have hnonnil : (voices.length == 0) = false := by
    cases voices with
    | nil => cases hw
    | cons a l => simp
  rcases firstExact_complete voices (localesFor langCode) ⟨w.lang, hexact, w, hw, rfl⟩
    with ⟨r, h1, h2, h3⟩
  refine ⟨r, ?_, h2, h3⟩
  unfold findVoiceForLanguage
  rw [hnonnil]
  simp only [Bool.false_eq_true, if_false]
  rw [h1]

/-- Witness for C4: the list holds a loose (prefix) candidate first and
an exact `hi-IN` voice second; the resolver returns the exact one. -/
theorem findVoice_exact_preferred_witness :
    (LANGUAGE_VOICE_MAP "hi").isSome = true ∧
    ∃ r, findVoiceForLanguage [⟨"Loose", "hi-INx"⟩, ⟨"Exact", "hi-IN"⟩] "hi" = some r ∧
      r.lang ∈ localesFor "hi" ∧
      r ∈ [(⟨"Loose", "hi-INx"⟩ : Voice), ⟨"Exact", "hi-IN"⟩] := by
  exact ⟨by decide, findVoice_exact_preferred "hi" (by decide)
    [⟨"Loose", "hi-INx"⟩, ⟨"Exact", "hi-IN"⟩] ⟨"Exact", "hi-IN"⟩ (by decide) (by decide)⟩

/-- Helper: soundness of the exact tier. -/
theorem firstExact_sound (voices : List Voice) (locs : List String) (v : Voice)
    (h : firstExact voices locs = some v) : v ∈ voices ∧ v.lang ∈ locs := by
  induction locs with
  | nil => cases h
  | cons loc rest ih =>
    cases hf : voices.find? (fun x => x.lang == loc) with
    | some w =>
      have hw : w = v := by
        have := h
        simp [firstExact, hf] at this
        exact this
      subst hw
      refine ⟨List.mem_of_find?_eq_some hf, ?_⟩
      have := List.find?_some hf
      simp only [beq_iff_eq] at this
      simp [this]
    | none =>
      have hrec : firstExact voices rest = some v := by
        have := h
        simpa [firstExact, hf] using this
      rcases ih hrec with ⟨h1, h2⟩
      exact ⟨h1, List.mem_cons_of_mem _ h2⟩

/-- Helper: soundness of the loose tier. -/
theorem firstLoose_sound (voices : List Voice) (locs : List String) (v : Voice)
    (h : firstLoose voices locs = some v) :
    v ∈ voices ∧ ∃ loc ∈ locs, loosePred loc v = true := by
  induction locs with
  | nil => cases h
  | cons loc rest ih =>
    cases hf : voices.find? (loosePred loc) with
    | some w =>
      have hw : w = v := by
        have := h
        simp [firstLoose, hf] at this
        exact this
      subst hw
      exact ⟨List.mem_of_find?_eq_some hf,
        loc, List.mem_cons_self _ _, List.find?_some hf⟩
    | none =>
      have hrec : firstLoose voices rest = some v := by
        have := h
        simpa [firstLoose, hf] using this
      rcases ih hrec with ⟨h1, loc', h2, h3⟩
      exact ⟨h1, loc', List.mem_cons_of_mem _ h2, h3⟩

/-- Helper: soundness of the name tier. -/
theorem firstByName_sound (voices : List Voice) (nms : List String) (v : Voice)
    (h : firstByName voices nms = some v) :
    v ∈ voices ∧ ∃ nm ∈ nms, namePred nm v = true := by
  induction nms with
  | nil => cases h
  | cons nm rest ih =>
    cases hf : voices.find? (namePred nm) with
    | some w =>
      have hw : w = v := by
        have := h
        simp [firstByName, hf] at this
        exact this
      subst hw
      exact ⟨List.mem_of_find?_eq_some hf,
        nm, List.mem_cons_self _ _, List.find?_some hf⟩
    | none =>
      have hrec : firstByName voices rest = some v := by
        have := h
        simpa [firstByName, hf] using this
      rcases ih hrec with ⟨h1, nm', h2, h3⟩
      exact ⟨h1, nm', List.mem_cons_of_mem _ h2, h3⟩

/-- C7: `findVoiceForLanguage` returns `none` on an empty voice list
(for any language code), and whenever it returns a voice, that voice
belongs to the given list and matches one of the algorithm's tiers for
the requested language — so it never substitutes an unrelated default
voice, and when no tier matches it returns `none`.  (It is a total
Lean function, so it cannot throw.) -/
theorem findVoice_no_default (langCode : String) :
    findVoiceForLanguage [] langCode = none ∧
    ∀ (voices : List Voice) (v : Voice),
      findVoiceForLanguage voices langCode = some v →
        v ∈ voices ∧ tierMatch langCode v := by
  constructor
  · rfl
  · intro voices v h
    unfold findVoiceForLanguage at h
    by_cases hlen : (voices.length == 0) = true
    · rw [if_pos hlen] at h
      cases h
    · rw [if_neg hlen] at h
      simp only at h
      cases he : firstExact voices (localesFor langCode) with
      | some w =>
        rw [he] at h
        cases h
        rcases firstExact_sound voices (localesFor langCode) v he with ⟨h1, h2⟩
        exact ⟨h1, Or.inl h2⟩
      | none =>
        rw [he] at h
        cases hl : firstLoose voices (localesFor langCode) with
        | some w =>
          rw [hl] at h
          cases h
          rcases firstLoose_sound voices (localesFor langCode) v hl with ⟨h1, h2⟩
          exact ⟨h1, Or.inr (Or.inl h2)⟩
        | none =>
          rw [hl] at h
          rcases firstByName_sound voices (langNames langCode) v h with ⟨h1, h2⟩
          exact ⟨h1, Or.inr (Or.inr h2)⟩

/-- Witness for C7: the empty list yields `none` for Telugu, and the
voice the resolver picks from a singleton Telugu list is that very
voice, matching a tier. -/
theorem findVoice_no_default_witness :
    findVoiceForLanguage [] "te" = none ∧
    ((⟨"Telugu Voice", "te-IN"⟩ : Voice) ∈ [(⟨"Telugu Voice", "te-IN"⟩ : Voice)] ∧
      tierMatch "te" ⟨"Telugu Voice", "te-IN"⟩) := by
  exact ⟨(findVoice_no_default "te").1,
    (findVoice_no_default "te").2 [⟨"Telugu Voice", "te-IN"⟩] ⟨"Telugu Voice", "te-IN"⟩
      (by decide)⟩

end VisionListener
